import Mathlib

/-!
Shallow embedding of `forte/data/ontology/core.py`: the `Entry` base class,
`BaseLink` and `BaseGroup`, together with the fragment of the owning
container ("pack") contract that these classes call into
(`get_next_id`, `validate`, `add_entry_creation_record`, `add_field_record`,
`get_entry`).

Modelling conventions:
- Python classes are modelled by a small closed universe `PyType` of
  concrete entry types, with `isSubclassOf` standing for `isinstance`
  checks.  Every modelled type is (transitively) a subclass of the base
  entry type, mirroring the inheritance from `Entry`.
- Machine-level Python objects are modelled by plain Lean data; numpy
  1-d float arrays become `NDArray`, a wrapper around `List Rat`
  (an exact numeric type: `ndarray.tolist` / `np.array` on a 1-d float64
  array is an exact round trip).
- Python in-place mutation becomes explicit state passing: methods that
  mutate `self` or the pack return the updated entry / pack next to their
  result, and a raised exception becomes an `Except.error` carrying the
  structured content of the exception message.  A method that raises
  mid-loop returns the partially-updated state reached so far, matching
  in-place mutation semantics.
- The entry's `__pack` back-reference is modelled as `Option Nat` (a pack
  id, arena-style); `none` covers both `__pack is None` and the attribute
  being absent after deserialization.  Operations that dereference the
  back-reference receive the referenced pack (or `none`) explicitly.
-/

deriving instance DecidableEq for Except

namespace ForteCore

/-- The closed universe of concrete Python classes used by the model.
`entryBase` plays the role of the `Entry` base class; the others are
stand-ins for concrete subclasses (annotations, links, groups). -/
inductive PyType where
  | entryBase
  | sentenceE
  | tokenE
  | phraseE
  | linkE
  | groupE
deriving DecidableEq

/-- A numeric code for each class, used by the model of Python's `hash`. -/
def PyType.code : PyType → Nat
  | .entryBase => 0
  | .sentenceE => 1
  | .tokenE => 2
  | .phraseE => 3
  | .linkE => 4
  | .groupE => 5

/-- Model of `isinstance(x, T)` on the closed universe: every modelled
type inherits from the base entry class, and the concrete types are
otherwise unrelated. -/
def PyType.isSubclassOf (a b : PyType) : Bool :=
  decide (a = b) || decide (b = PyType.entryBase)

/-- Model of a 1-d numpy float array (`self._embedding`).  Elements are
`Rat` because `tolist`/`np.array` round float64 values exactly. -/
structure NDArray where
  data : List Rat
deriving DecidableEq

/-- Model of `ndarray.tolist()`. -/
def NDArray.tolist (a : NDArray) : List Rat := a.data

/-- Model of `np.array(xs)` for a plain list of numbers `xs`. -/
def npArray (xs : List Rat) : NDArray := ⟨xs⟩

/-- Model of `np.empty(0)`, the embedding's initial value. -/
def NDArray.emptyArr : NDArray := ⟨[]⟩

/-- The values that may appear in an entry's `__dict__`, used as the
value type of the keyword arguments of `set_fields`.  The docstring of
`set_fields` requires every value to match its field's type, so the
model only carries values of the four instance-attribute types. -/
inductive PyVal where
  | intV (n : Nat)
  | arrV (a : NDArray)
  | packV (r : Option Nat)
  | strSetV (s : List String)
deriving DecidableEq

/-- The state of an `Entry` object: its concrete class and the four
instance attributes set up by `Entry.__init__`
(`_tid`, `_embedding`, `_Entry__pack`, `_Entry__field_modified`). -/
structure Entry where
  ty : PyType
  tid : Nat
  embedding : NDArray
  pack : Option Nat
  fieldModified : List String
deriving DecidableEq

/-- Structured content of the exceptions raised in `core.py` and of the
container-side failures its calls can surface. -/
inductive CoreError where
  /-- `AttributeError` from `set_fields`: carries `self.__class__` and
  the offending field name. -/
  | attributeError (ty : PyType) (field : String)
  /-- `TypeError` from `add_members`: carries `type(self)`,
  `self.MemberType` and `type(member)`. -/
  | typeError (groupTy : PyType) (memberTy : PyType) (actualTy : PyType)
  /-- `ValueError` from `get_members` when the group has no pack. -/
  | valueErrorUnattached
  /-- Failure of `pack.get_entry` on an id with no live entry. -/
  | keyError (tid : Nat)
  /-- `pack.validate` rejecting a newly constructed entry. -/
  | admissionRejected
  /-- Resolving a link endpoint that was never set. -/
  | endpointUnset
  /-- Model-only: a `set_fields` value not matching the field's type,
  which the `set_fields` docstring forbids. -/
  | illTypedValue (field : String)
deriving DecidableEq

/-- The fragment of the owning container visible from `core.py`:
the id allocator, the entry store used for resolution, the creation and
field-mutation audit records, and the admission-validation policy
(external, hence a function field). -/
structure Pack where
  packId : Nat
  idCounter : Nat
  store : List (Nat × Entry)
  creationRecords : List Nat
  fieldRecords : List (Nat × String)
  admits : Entry → Bool

/-- Model of `pack.get_next_id()`: returns a fresh id and the updated
allocator state (ids are unique for the container's lifetime). -/
def Pack.get_next_id (p : Pack) : Nat × Pack :=
  (p.idCounter, { p with idCounter := p.idCounter + 1 })

/-- Model of `pack.add_entry_creation_record(tid)` (append-only audit). -/
def Pack.add_entry_creation_record (p : Pack) (tid : Nat) : Pack :=
  { p with creationRecords := p.creationRecords ++ [tid] }

/-- Model of `pack.add_field_record(tid, field_name)` (append-only audit). -/
def Pack.add_field_record (p : Pack) (tid : Nat) (name : String) : Pack :=
  { p with fieldRecords := p.fieldRecords ++ [(tid, name)] }

/-- Model of `pack.get_entry(tid)`: resolve an id to a live entry. -/
def Pack.get_entry (p : Pack) (tid : Nat) : Option Entry :=
  (p.store.find? (fun kv => decide (kv.1 = tid))).map (fun kv => kv.2)

/-- Model of `Entry.__init__(self, pack)` for an object of concrete class
`ty`: ask the pack for the next id, initialize the embedding to an empty
array and the modified-field set to empty, store the back-reference,
then have the pack validate the entry and, on success, record its
creation.  A validation failure propagates (`Except.error`) after the id
was already allocated; the updated pack is returned in either case. -/
def Entry.construct (ty : PyType) (p : Pack) : Except CoreError Entry × Pack :=
  let alloc := p.get_next_id
  let e : Entry :=
    { ty := ty, tid := alloc.1, embedding := NDArray.emptyArr,
      pack := some p.packId, fieldModified := [] }
  if (alloc.2).admits e then
    (.ok e, (alloc.2).add_entry_creation_record alloc.1)
  else
    (.error .admissionRejected, alloc.2)

/-- Model of `Entry.reset(self)`: re-runs `__init__` against the entry's
own pack (passed explicitly). -/
def Entry.reset (e : Entry) (p : Pack) : Except CoreError Entry × Pack :=
  Entry.construct e.ty p

/-- The snapshot produced by `Entry.__getstate__`: the instance dict
minus `_Entry__pack` and `_Entry__field_modified`, with the embedding
converted to a plain list of numbers. -/
structure EntryState where
  tid : Nat
  embedding : List Rat
deriving DecidableEq

/-- Model of `Entry.__getstate__`. -/
def Entry.getstate (e : Entry) : EntryState :=
  { tid := e.tid, embedding := e.embedding.tolist }

/-- Model of `Entry.__setstate__` applied to a fresh object of class
`ty`: reset the modified-field set to empty, convert the serialized list
back to an array, and install the snapshot's attributes; the pack
back-reference is not restored (it is set later via `set_pack`). -/
def Entry.setstate (ty : PyType) (s : EntryState) : Entry :=
  { ty := ty, tid := s.tid, embedding := npArray s.embedding,
    pack := none, fieldModified := [] }

/-- Model of the `embedding` property setter:
`self._embedding = np.array(embed)`. -/
def Entry.setEmbedding (e : Entry) (v : List Rat) : Entry :=
  { e with embedding := npArray v }

/-- The keys of `vars(self)` for a base `Entry` object: exactly the four
instance attributes assigned in `__init__` (with Python name mangling
applied to the private ones). -/
def entryVars : List String :=
  ["_tid", "_embedding", "_Entry__pack", "_Entry__field_modified"]

/-- Model of `setattr(self, name, value)` restricted to the four entry
attributes; `none` signals a value whose type does not match the field
(excluded by the `set_fields` docstring) or an unknown name. -/
def Entry.setattrE (e : Entry) (name : String) (v : PyVal) : Option Entry :=
  if name = "_tid" then
    match v with
    | .intV n => some { e with tid := n }
    | _ => none
  else if name = "_embedding" then
    match v with
    | .arrV a => some { e with embedding := a }
    | _ => none
  else if name = "_Entry__pack" then
    match v with
    | .packV r => some { e with pack := r }
    | _ => none
  else if name = "_Entry__field_modified" then
    match v with
    | .strSetV s => some { e with fieldModified := s }
    | _ => none
  else none

/-- Model of `Entry.set_fields(self, **kwargs)`: process the pairs in
order; a known attribute name is assigned and then recorded in the
pack's field audit under `self.tid` (read after the assignment, as in
the source); an unknown name raises `AttributeError` naming the class
and the field.  The entry and pack states reached before a failure are
returned with the error, matching in-place mutation. -/
def Entry.set_fields (e : Entry) (p : Pack) :
    List (String × PyVal) → Except CoreError Unit × Entry × Pack
  | [] => (.ok (), e, p)
  | (name, v) :: rest =>
    if name ∈ entryVars then
      match e.setattrE name v with
      | some e1 => Entry.set_fields e1 (p.add_field_record e1.tid name) rest
      | none => (.error (.illTypedValue name), e, p)
    else
      (.error (.attributeError e.ty name), e, p)

/-- Model of a Python tuple hash, specialised to pairs of naturals. -/
def hashPair (a b : Nat) : Nat := a * 1000003 + b

/-- Model of a Python tuple hash over a list of naturals. -/
def hashNatList (l : List Nat) : Nat := l.foldl hashPair 1000003

/-- Model of `Entry.__eq__(self, other)`: `False` against `None`,
otherwise compare `(type(self), self._tid)` with `(type(other),
other.tid)`. -/
def Entry.eqPy (e : Entry) : Option Entry → Bool
  | none => false
  | some o => decide (e.ty = o.ty) && decide (e.tid = o.tid)

/-- Model of `Entry.__hash__(self)`: `hash((type(self), self._tid))`. -/
def Entry.hashPy (e : Entry) : Nat := hashPair e.ty.code e.tid

/-- The state of a `BaseLink` object: its underlying entry state plus the
stored endpoint references.  `set_parent`/`get_parent` are abstract in
the source; per the spec each endpoint is "stored as a resolvable
identity" scoped to the owning container, so the model stores an
optional entry id per endpoint (`none` until the endpoint is set). -/
structure BaseLink where
  entry : Entry
  parentTid : Option Nat
  childTid : Option Nat
deriving DecidableEq

/-- Modelled from the spec: `BaseLink.get_parent` is abstract in the
source (`raise NotImplementedError`); the spec fixes its contract as
resolving the stored parent identity to a live entry via the owning
container, failing if the endpoint is unset or cannot be resolved. -/
def BaseLink.get_parent (l : BaseLink) (p : Pack) : Except CoreError Entry :=
  match l.parentTid with
  | none => .error .endpointUnset
  | some t =>
    match p.get_entry t with
    | some e => .ok e
    | none => .error (.keyError t)

/-- Modelled from the spec: `BaseLink.get_child` is abstract in the
source (`raise NotImplementedError`); the spec fixes its contract as
resolving the stored child identity to a live entry via the owning
container, failing if the endpoint is unset or cannot be resolved. -/
def BaseLink.get_child (l : BaseLink) (p : Pack) : Except CoreError Entry :=
  match l.childTid with
  | none => .error .endpointUnset
  | some t =>
    match p.get_entry t with
    | some e => .ok e
    | none => .error (.keyError t)

/-- Model of `BaseLink.__eq__(self, other)`: `False` against `None`
without resolving anything; otherwise build the two tuples
`(type(self), self.get_parent(), self.get_child())` and
`(type(other), other.get_parent(), other.get_child())` — resolving all
four endpoints, errors propagating — and compare them, the endpoint
entries being compared by `Entry.__eq__`. -/
def BaseLink.eqPy (l : BaseLink) (p : Pack) :
    Option BaseLink → Except CoreError Bool
  | none => .ok false
  | some o =>
    match l.get_parent p with
    | .error err => .error err
    | .ok a =>
      match l.get_child p with
      | .error err => .error err
      | .ok b =>
        match o.get_parent p with
        | .error err => .error err
        | .ok c =>
          match o.get_child p with
          | .error err => .error err
          | .ok d =>
            .ok (decide (l.entry.ty = o.entry.ty)
                  && a.eqPy (some c) && b.eqPy (some d))

/-- Model of `BaseLink.__hash__(self)`:
`hash((type(self), self.get_parent(), self.get_child()))`, the endpoint
entries hashing by `Entry.__hash__`; resolution errors propagate. -/
def BaseLink.hashPy (l : BaseLink) (p : Pack) : Except CoreError Nat :=
  match l.get_parent p with
  | .error err => .error err
  | .ok a =>
    match l.get_child p with
    | .error err => .error err
    | .ok b => .ok (hashPair (hashPair l.entry.ty.code a.hashPy) b.hashPy)

/-- The state of a `BaseGroup` object: its underlying entry state, the
`MemberType` class attribute of its concrete class, and `self._members`,
the set of member ids. -/
structure BaseGroup where
  entry : Entry
  memberType : PyType
  members : Finset Nat
deriving DecidableEq

/-- Model of `BaseGroup.add_members(self, members)`: for each candidate
in order, check `isinstance(member, self.MemberType)` — raising a
`TypeError` naming `type(self)`, `self.MemberType` and `type(member)` on
mismatch — and otherwise insert `member.tid` into the member set.
Members processed before a failure stay added (in-place mutation). -/
def BaseGroup.add_members (g : BaseGroup) :
    List Entry → Except CoreError Unit × BaseGroup
  | [] => (.ok (), g)
  | m :: rest =>
    if m.ty.isSubclassOf g.memberType then
      BaseGroup.add_members { g with members := insert m.tid g.members } rest
    else
      (.error (.typeError g.entry.ty g.memberType m.ty), g)

/-- Model of `BaseGroup.add_member(self, member)`:
`self.add_members([member])`. -/
def BaseGroup.add_member (g : BaseGroup) (m : Entry) :
    Except CoreError Unit × BaseGroup :=
  g.add_members [m]

/-- Model of `BaseGroup.__eq__(self, other)`: `False` against `None`,
otherwise compare `(type(self), self.members)` with
`(type(other), other.members)` — set equality on the member ids, the
group's own id playing no part. -/
def BaseGroup.eqPy (g : BaseGroup) : Option BaseGroup → Bool
  | none => false
  | some o => decide (g.entry.ty = o.entry.ty) && decide (g.members = o.members)

/-- One concrete (ascending) enumeration of a finite set of naturals.
CPython iterates a set object in an order that depends on the object's
insertion history, not only on the set value, so no function of the set
value can model `tuple(s)` faithfully; this enumeration is used only
where the conclusion drawn is insensitive to the enumeration order
(`get_members`, whose resolved result is characterised by membership). -/
def setToList (s : Finset Nat) : List Nat :=
  (List.range (s.sup id + 1)).filter (fun x => decide (x ∈ s))

/-- Model of `BaseGroup.__hash__(self)`:
`hash((type(self), tuple(self.members)))`.  `tuple(self.members)`
enumerates the concrete set object in CPython's iteration order, which
depends on the object's insertion history and is not determined by the
set value (inserting 2 then 10 iterates `(2, 10)`, inserting 10 then 2
iterates `(10, 2)`); the model therefore takes that iteration order as
an explicit argument describing the concrete `_members` object being
hashed. -/
def BaseGroup.hashPyAt (g : BaseGroup) (iterOrder : List Nat) : Nat :=
  hashPair g.entry.ty.code (hashNatList iterOrder)

/-- The iteration orders that a concrete set object denoting the value
`s` can exhibit: some duplicate-free enumeration of exactly the
elements of `s` (which one depends on the object's insertion history). -/
def IterOrderOf (iterOrder : List Nat) (s : Finset Nat) : Prop :=
  iterOrder.Nodup ∧ iterOrder.toFinset = s

/-- Resolve a list of member ids through the pack in order, failing on
the first id with no live entry (the loop body of `get_members`). -/
def resolveAll (p : Pack) : List Nat → Except CoreError (List Entry)
  | [] => .ok []
  | m :: rest =>
    match p.get_entry m with
    | some e => (resolveAll p rest).map (fun es => e :: es)
    | none => .error (.keyError m)

/-- Model of `BaseGroup.get_members(self)`: raise a `ValueError` if the
group's pack back-reference does not yield a container, otherwise
resolve every member id to a live entry via `self.pack.get_entry`.
`packRef` is the dereferenced `self.pack` (explicit state passing); the
member set is enumerated canonically (ascending). -/
def BaseGroup.get_members (g : BaseGroup) (packRef : Option Pack) :
    Except CoreError (List Entry) :=
  match packRef with
  | none => .error .valueErrorUnattached
  | some p => resolveAll p (setToList g.members)

/-! Concrete fixtures used to instantiate the theorems below: a pack
holding two sentence entries, together with groups and links over them. -/

namespace Ex

def eS0 : Entry :=
  { ty := .sentenceE, tid := 0, embedding := npArray [1, 2],
    pack := some 7, fieldModified := [] }

def eS0b : Entry :=
  { ty := .sentenceE, tid := 0, embedding := NDArray.emptyArr,
    pack := none, fieldModified := ["a"] }

def eS1 : Entry :=
  { ty := .sentenceE, tid := 1, embedding := NDArray.emptyArr,
    pack := some 7, fieldModified := [] }

def eTok : Entry :=
  { ty := .tokenE, tid := 4, embedding := NDArray.emptyArr,
    pack := some 7, fieldModified := [] }

def pEx : Pack :=
  { packId := 7, idCounter := 5, store := [(0, eS0), (1, eS1)],
    creationRecords := [0, 1], fieldRecords := [], admits := fun _ => true }

def pReject : Pack :=
  { packId := 8, idCounter := 5, store := [], creationRecords := [0, 1],
    fieldRecords := [], admits := fun _ => false }

def gEmpty : BaseGroup :=
  { entry := { ty := .groupE, tid := 2, embedding := NDArray.emptyArr,
               pack := some 7, fieldModified := [] },
    memberType := .sentenceE, members := ∅ }

def g01 : BaseGroup := { gEmpty with members := {0, 1} }

def lnk3 : BaseLink :=
  { entry := { ty := .linkE, tid := 3, embedding := NDArray.emptyArr,
               pack := some 7, fieldModified := [] },
    parentTid := some 0, childTid := some 1 }

def lnk4 : BaseLink :=
  { entry := { ty := .linkE, tid := 4, embedding := npArray [9],
               pack := some 7, fieldModified := [] },
    parentTid := some 0, childTid := some 1 }

def eS2 : Entry :=
  { ty := .sentenceE, tid := 2, embedding := NDArray.emptyArr,
    pack := some 7, fieldModified := [] }

def eS10 : Entry :=
  { ty := .sentenceE, tid := 10, embedding := NDArray.emptyArr,
    pack := some 7, fieldModified := [] }

/-- A group with id 5 whose members were added in the order 2 then 10;
its concrete `_members` set object iterates as `(2, 10)`. -/
def gInsA : BaseGroup :=
  (BaseGroup.add_members
    { entry := { ty := .groupE, tid := 5, embedding := NDArray.emptyArr,
                 pack := some 7, fieldModified := [] },
      memberType := .sentenceE, members := ∅ }
    [eS2, eS10]).2

/-- A group with id 6 whose members were added in the order 10 then 2;
its concrete `_members` set object iterates as `(10, 2)`. -/
def gInsB : BaseGroup :=
  (BaseGroup.add_members
    { entry := { ty := .groupE, tid := 6, embedding := NDArray.emptyArr,
                 pack := some 7, fieldModified := [] },
      memberType := .sentenceE, members := ∅ }
    [eS10, eS2]).2

end Ex

/-- Claim C1: for base entries, equality holds exactly when the concrete
type and the id agree — independently of embedding, pack back-reference
and modified-field state — and the hash is a function of the same
`(type, id)` pair, so equal `(type, id)` implies equal hash. -/
theorem entry_eq_iff_type_tid_and_hash_agrees (e1 e2 : Entry) :
    (Entry.eqPy e1 (some e2) = true ↔ (e1.ty = e2.ty ∧ e1.tid = e2.tid))
    ∧ (e1.ty = e2.ty → e1.tid = e2.tid → Entry.hashPy e1 = Entry.hashPy e2) := by
  constructor
  · simp [Entry.eqPy]
  · intro h1 h2
    simp [Entry.hashPy, h1, h2]

/-- Witness for C1: two entries of the same type and id but different
embedding, pack and modified-field state are equal and hash equally. -/
theorem entry_eq_iff_type_tid_and_hash_agrees_witness :
    Entry.eqPy Ex.eS0 (some Ex.eS0b) = true
    ∧ Entry.hashPy Ex.eS0 = Entry.hashPy Ex.eS0b :=
  ⟨(entry_eq_iff_type_tid_and_hash_agrees Ex.eS0 Ex.eS0b).1.mpr ⟨rfl, rfl⟩,
   (entry_eq_iff_type_tid_and_hash_agrees Ex.eS0 Ex.eS0b).2 rfl rfl⟩

/-- Claim C2: deserializing the serialized snapshot of an entry
reproduces the concrete type, the id and the embedding exactly, with the
pack back-reference absent and the modified-field set reset to empty;
the embedding, flattened to a plain list of numbers in the snapshot,
round-trips numerically into the internal array representation. -/
theorem entry_serialization_roundtrip (e : Entry) :
    Entry.setstate e.ty (Entry.getstate e) =
      { e with pack := none, fieldModified := [] }
    ∧ npArray ((Entry.getstate e).embedding) = e.embedding := by
  obtain ⟨ty, tid, ⟨data⟩, pk, fm⟩ := e
  exact ⟨rfl, rfl⟩

/-- Claim C9: comparing an entry, a link or a group against `None`
returns `False`; for links this holds for every pack state, so no
endpoint resolution is attempted (the result is `False` even when the
endpoints could not be resolved). -/
theorem eq_against_none_is_false :
    (∀ e : Entry, Entry.eqPy e none = false)
    ∧ (∀ (l : BaseLink) (p : Pack), BaseLink.eqPy l p none = .ok false)
    ∧ (∀ g : BaseGroup, BaseGroup.eqPy g none = false) :=
  ⟨fun _ => rfl, fun _ _ => rfl, fun _ => rfl⟩

/-- Claim C10: when the container's validation rejects the entry under
construction, construction fails with no creation record added, but the
id allocator has already been advanced — the rejected entry consumed one
id. -/
theorem construct_rejected_consumes_id (ty : PyType) (p : Pack)
    (h : p.admits
      { ty := ty, tid := p.idCounter, embedding := NDArray.emptyArr,
        pack := some p.packId, fieldModified := [] } = false) :
    (Entry.construct ty p).1 = .error .admissionRejected
    ∧ (Entry.construct ty p).2.idCounter = p.idCounter + 1
    ∧ (Entry.construct ty p).2.creationRecords = p.creationRecords := by
  simp [Entry.construct, Pack.get_next_id, h]

/-- Witness for C10: a pack that rejects every entry refuses the
construction, records nothing, and still advances the allocator. -/
theorem construct_rejected_consumes_id_witness :
    (Entry.construct .sentenceE Ex.pReject).1 = .error .admissionRejected
    ∧ (Entry.construct .sentenceE Ex.pReject).2.idCounter = Ex.pReject.idCounter + 1
    ∧ (Entry.construct .sentenceE Ex.pReject).2.creationRecords
        = Ex.pReject.creationRecords :=
  construct_rejected_consumes_id .sentenceE Ex.pReject rfl

/-- Claim C4: `add_member` succeeds exactly when the candidate is an
instance of the group's declared member type; on mismatch it raises a
`TypeError` carrying the group's concrete type and the member's actual
type, leaving the member set unchanged; on success it inserts the
member's id, and adding the same member again leaves the set unchanged
(set semantics: each accepted id occurs once). -/
theorem group_add_member_type_check (g : BaseGroup) (m : Entry) :
    ((g.add_member m).1 = .ok () ↔ m.ty.isSubclassOf g.memberType = true)
    ∧ (m.ty.isSubclassOf g.memberType = false →
        g.add_member m = (.error (.typeError g.entry.ty g.memberType m.ty), g))
    ∧ (m.ty.isSubclassOf g.memberType = true →
        (g.add_member m).2.members = insert m.tid g.members)
    ∧ ((g.add_member m).2.add_member m).2.members = (g.add_member m).2.members := by
  cases hsub : m.ty.isSubclassOf g.memberType
  · refine ⟨?_, ?_, ?_, ?_⟩
    · simp [BaseGroup.add_member, BaseGroup.add_members, hsub]
    · intro _
      simp [BaseGroup.add_member, BaseGroup.add_members, hsub]
    · intro hcontra
      simp [hsub] at hcontra
    · simp [BaseGroup.add_member, BaseGroup.add_members, hsub]
  · refine ⟨?_, ?_, ?_, ?_⟩
    · simp [BaseGroup.add_member, BaseGroup.add_members, hsub]
    · intro hcontra
      simp [hsub] at hcontra
    · intro _
      simp [BaseGroup.add_member, BaseGroup.add_members, hsub]
    · simp [BaseGroup.add_member, BaseGroup.add_members, hsub, Finset.insert_idem]

/-- Witness for C4: adding a sentence to a sentence-group succeeds and
adding it twice yields a one-element member set; adding a token to the
same group raises a `TypeError` and leaves the set empty. -/
theorem group_add_member_type_check_witness :
    (Ex.gEmpty.add_member Ex.eS0).1 = .ok ()
    ∧ (Ex.gEmpty.add_member Ex.eS0).2.members = insert Ex.eS0.tid Ex.gEmpty.members
    ∧ ((Ex.gEmpty.add_member Ex.eS0).2.add_member Ex.eS0).2.members
        = (Ex.gEmpty.add_member Ex.eS0).2.members
    ∧ Ex.gEmpty.add_member Ex.eTok
        = (.error (.typeError Ex.gEmpty.entry.ty Ex.gEmpty.memberType Ex.eTok.ty),
           Ex.gEmpty) :=
  ⟨(group_add_member_type_check Ex.gEmpty Ex.eS0).1.mpr rfl,
   (group_add_member_type_check Ex.gEmpty Ex.eS0).2.2.1 rfl,
   (group_add_member_type_check Ex.gEmpty Ex.eS0).2.2.2,
   (group_add_member_type_check Ex.gEmpty Ex.eTok).2.1 rfl⟩

/-- Claim C5 (code bug): group equality is over the `(type, member
set)` pair — two groups with different own ids (5 and 6), built by
adding the same two members in opposite orders, compare equal — but the
hash is computed from `tuple(self.members)`, whose iteration order
follows the concrete set object's insertion history: the two equal
groups enumerate their members as `(2, 10)` and `(10, 2)` respectively
(both orders are valid iterations of the same set value) and hash
differently, so group hash is not consistent with group equality even
though the methods' own docstrings require it to be. -/
theorem group_equal_sets_can_hash_differently :
    BaseGroup.eqPy Ex.gInsA (some Ex.gInsB) = true
    ∧ Ex.gInsA.entry.tid ≠ Ex.gInsB.entry.tid
    ∧ IterOrderOf [2, 10] Ex.gInsA.members
    ∧ IterOrderOf [10, 2] Ex.gInsB.members
    ∧ Ex.gInsA.hashPyAt [2, 10] ≠ Ex.gInsB.hashPyAt [10, 2] :=
  ⟨by decide, by decide, ⟨by decide, by decide⟩, ⟨by decide, by decide⟩,
   by decide⟩

/-- Every id of `setToList s` is an element of `s` and conversely. -/
theorem mem_setToList {s : Finset Nat} {m : Nat} :
    m ∈ setToList s ↔ m ∈ s := by
  constructor
  · intro h
    exact of_decide_eq_true (List.mem_filter.mp h).2
  · intro h
    refine List.mem_filter.mpr ⟨List.mem_range.mpr ?_, decide_eq_true h⟩
    exact Nat.lt_succ_of_le (Finset.le_sup (f := id) h)

/-- If every id in a list resolves through the pack, the resolution loop
succeeds and returns, for each listed id, the live entry the pack holds
for it. -/
theorem resolveAll_ok (p : Pack) (l : List Nat)
    (h : ∀ m ∈ l, (p.get_entry m).isSome = true) :
    ∃ es, resolveAll p l = .ok es
      ∧ ∀ m ∈ l, ∃ e, p.get_entry m = some e ∧ e ∈ es := by
  induction l with
  | nil => exact ⟨[], rfl, by simp⟩
  | cons m rest ih =>
    obtain ⟨e, he⟩ := Option.isSome_iff_exists.mp (h m (List.mem_cons_self m rest))
    obtain ⟨es, hes, hprop⟩ := ih (fun x hx => h x (List.mem_cons_of_mem _ hx))
    refine ⟨e :: es, by simp [resolveAll, he, hes, Except.map], ?_⟩
    intro x hx
    rcases List.mem_cons.mp hx with hx | hx
    · subst hx
      exact ⟨e, he, List.mem_cons_self _ _⟩
    · obtain ⟨e1, he1, hmem⟩ := hprop x hx
      exact ⟨e1, he1, List.mem_cons_of_mem _ hmem⟩

/-- Claim C7: `get_members` on a group whose pack back-reference yields
no container fails with the unattached `ValueError` instead of returning
a default; on an attached group whose member ids all have live entries,
it succeeds and resolves every id in the member set to the live entry
the container holds for it. -/
theorem group_get_members_unattached_or_resolves (g : BaseGroup) :
    BaseGroup.get_members g none = .error .valueErrorUnattached
    ∧ ∀ p : Pack, (∀ m ∈ g.members, (p.get_entry m).isSome = true) →
        ∃ es, BaseGroup.get_members g (some p) = .ok es
          ∧ ∀ m ∈ g.members, ∃ e, p.get_entry m = some e ∧ e ∈ es := by
  refine ⟨rfl, ?_⟩
  intro p h
  obtain ⟨es, hes, hprop⟩ :=
    resolveAll_ok p (setToList g.members)
      (fun m hm => h m (mem_setToList.mp hm))
  exact ⟨es, hes, fun m hm => hprop m (mem_setToList.mpr hm)⟩

/-- Witness for C7: the two-member group resolves both members through
the example pack, and the same group detached from any pack fails with
the unattached error. -/
theorem group_get_members_unattached_or_resolves_witness :
    BaseGroup.get_members Ex.g01 none = .error .valueErrorUnattached
    ∧ ∃ es, BaseGroup.get_members Ex.g01 (some Ex.pEx) = .ok es
        ∧ ∀ m ∈ Ex.g01.members, ∃ e, Ex.pEx.get_entry m = some e ∧ e ∈ es :=
  ⟨(group_get_members_unattached_or_resolves Ex.g01).1,
   (group_get_members_unattached_or_resolves Ex.g01).2 Ex.pEx (by decide)⟩

/-- Equality of base entries holds exactly on the `(type, id)` pair. -/
theorem entry_eqPy_some_iff (a b : Entry) :
    Entry.eqPy a (some b) = true ↔ a.ty = b.ty ∧ a.tid = b.tid := by
  simp [Entry.eqPy]

/-- Claim C6: when all four endpoints resolve, two links are equal
exactly when their concrete types agree and their resolved parents and
resolved children are respectively equal (as entries); link hash is
computed over `(type, parent, child)`, so equal links hash equally —
independently of the links' own entry ids. -/
theorem link_eq_hash_over_endpoints (l1 l2 : BaseLink) (p : Pack)
    (pa ca pb cb : Entry)
    (h1 : l1.get_parent p = .ok pa) (h2 : l1.get_child p = .ok ca)
    (h3 : l2.get_parent p = .ok pb) (h4 : l2.get_child p = .ok cb) :
    (BaseLink.eqPy l1 p (some l2) = .ok true
      ↔ (l1.entry.ty = l2.entry.ty
          ∧ Entry.eqPy pa (some pb) = true ∧ Entry.eqPy ca (some cb) = true))
    ∧ (BaseLink.eqPy l1 p (some l2) = .ok true →
        BaseLink.hashPy l1 p = BaseLink.hashPy l2 p) := by
  have heq : BaseLink.eqPy l1 p (some l2)
      = .ok (decide (l1.entry.ty = l2.entry.ty)
              && pa.eqPy (some pb) && ca.eqPy (some cb)) := by
    simp [BaseLink.eqPy, h1, h2, h3, h4]
  constructor
  · rw [heq]
    simp [and_assoc]
  · intro hok
    rw [heq] at hok
    simp [and_assoc] at hok
    obtain ⟨hty, hp, hc⟩ := hok
    obtain ⟨hpty, hptid⟩ := (entry_eqPy_some_iff pa pb).mp hp
    have hpe : Entry.hashPy pa = Entry.hashPy pb := by
      simp [Entry.hashPy, hpty, hptid]
    obtain ⟨hcty, hctid⟩ := (entry_eqPy_some_iff ca cb).mp hc
    have hce : Entry.hashPy ca = Entry.hashPy cb := by
      simp [Entry.hashPy, hcty, hctid]
    simp [BaseLink.hashPy, h1, h2, h3, h4, hty, hpe, hce]

/-- Witness for C6: two links with different own ids (3 and 4) and
different embeddings, whose endpoints resolve to the same two entries,
are equal and hash equally. -/
theorem link_eq_hash_over_endpoints_witness :
    Ex.lnk3.entry.tid ≠ Ex.lnk4.entry.tid
    ∧ BaseLink.eqPy Ex.lnk3 Ex.pEx (some Ex.lnk4) = .ok true
    ∧ BaseLink.hashPy Ex.lnk3 Ex.pEx = BaseLink.hashPy Ex.lnk4 Ex.pEx :=
  ⟨by decide,
   (link_eq_hash_over_endpoints Ex.lnk3 Ex.lnk4 Ex.pEx Ex.eS0 Ex.eS1 Ex.eS0 Ex.eS1
      rfl rfl rfl rfl).1.mpr ⟨rfl, by decide, by decide⟩,
   (link_eq_hash_over_endpoints Ex.lnk3 Ex.lnk4 Ex.pEx Ex.eS0 Ex.eS1 Ex.eS0 Ex.eS1
      rfl rfl rfl rfl).2 (by decide)⟩

/-- An assignment through `setattrE` to any name other than `_tid`
leaves the entry's id unchanged. -/
theorem setattrE_tid_of_ne (e e1 : Entry) (name : String) (v : PyVal)
    (h : name ≠ "_tid") (hs : e.setattrE name v = some e1) : e1.tid = e.tid := by
  unfold Entry.setattrE at hs
  rw [if_neg h] at hs
  split at hs
  · split at hs
    · cases hs
      rfl
    · cases hs
  · split at hs
    · split at hs
      · cases hs
        rfl
      · cases hs
    · split at hs
      · split at hs
        · cases hs
          rfl
        · cases hs
      · cases hs

/-- `set_fields` with no `_tid` key leaves the entry's id unchanged,
whether or not the call succeeds. -/
theorem set_fields_tid_of_no_tid_key :
    ∀ (kwargs : List (String × PyVal)) (e : Entry) (p : Pack),
      (∀ kv ∈ kwargs, kv.1 ≠ "_tid") →
      ((Entry.set_fields e p kwargs).2.1).tid = e.tid := by
  intro kwargs
  induction kwargs with
  | nil => intro e p _; rfl
  | cons kv rest ih =>
    intro e p h
    obtain ⟨name, v⟩ := kv
    by_cases hv : name ∈ entryVars
    · cases hs : e.setattrE name v with
      | none => simp [Entry.set_fields, hv, hs]
      | some e1 =>
        have ht : e1.tid = e.tid :=
          setattrE_tid_of_ne e e1 name v (h (name, v) (List.mem_cons_self _ _)) hs
        have hrest := ih e1 (p.add_field_record e1.tid name)
          (fun kv hkv => h kv (List.mem_cons_of_mem _ hkv))
        rw [← ht]
        simpa [Entry.set_fields, hv, hs] using hrest
    · simp [Entry.set_fields, hv]

/-- A successful `set_fields` with no `_tid` key appends exactly one
audit record per keyword, keyed by the entry's id, in call order. -/
theorem set_fields_ok_records :
    ∀ (kwargs : List (String × PyVal)) (e : Entry) (p : Pack),
      (∀ kv ∈ kwargs, kv.1 ≠ "_tid") →
      (Entry.set_fields e p kwargs).1 = .ok () →
      ((Entry.set_fields e p kwargs).2.2).fieldRecords
        = p.fieldRecords ++ kwargs.map (fun kv => (e.tid, kv.1)) := by
  intro kwargs
  induction kwargs with
  | nil => intro e p _ _; simp [Entry.set_fields]
  | cons kv rest ih =>
    intro e p h hok
    obtain ⟨name, v⟩ := kv
    by_cases hv : name ∈ entryVars
    · cases hs : e.setattrE name v with
      | none => simp [Entry.set_fields, hv, hs] at hok
      | some e1 =>
        have ht : e1.tid = e.tid :=
          setattrE_tid_of_ne e e1 name v (h (name, v) (List.mem_cons_self _ _)) hs
        have hok2 : (Entry.set_fields e1 ((p.add_field_record e1.tid name)) rest).1
            = .ok () := by
          simpa [Entry.set_fields, hv, hs] using hok
        have hrec := ih e1 (p.add_field_record e1.tid name)
          (fun kv hkv => h kv (List.mem_cons_of_mem _ hkv)) hok2
        rw [← ht]
        simpa [Entry.set_fields, hv, hs, Pack.add_field_record, List.append_assoc]
          using hrec
    · simp [Entry.set_fields, hv] at hok

/-- A successful `setattrE` implies the name is an instance attribute. -/
theorem setattrE_mem_entryVars (e e1 : Entry) (name : String) (v : PyVal)
    (hs : e.setattrE name v = some e1) : name ∈ entryVars := by
  unfold Entry.setattrE at hs
  by_cases h1 : name = "_tid"
  · subst h1
    simp [entryVars]
  · rw [if_neg h1] at hs
    by_cases h2 : name = "_embedding"
    · subst h2
      simp [entryVars]
    · rw [if_neg h2] at hs
      by_cases h3 : name = "_Entry__pack"
      · subst h3
        simp [entryVars]
      · rw [if_neg h3] at hs
        by_cases h4 : name = "_Entry__field_modified"
        · subst h4
          simp [entryVars]
        · rw [if_neg h4] at hs
          cases hs

/-- Claim C3: `set_fields` processes its keyword pairs in order: a pair
whose name is a declared, settable attribute is assigned and recorded in
the container's field-mutation audit keyed by the entry's id, and
processing continues on the updated states; a pair whose name is unknown
raises an `AttributeError` carrying the concrete type and the offending
field, leaving the entry (hence that field) and the audit as the
previously processed pairs left them (fail-fast); and a fully successful
call appends exactly the assigned names, keyed by the entry's id, to the
container's audit. -/
theorem set_fields_pairwise_assign_or_unknown :
    (∀ (e e1 : Entry) (p : Pack) (name : String) (v : PyVal)
        (rest : List (String × PyVal)),
      e.setattrE name v = some e1 →
      Entry.set_fields e p ((name, v) :: rest)
        = Entry.set_fields e1 (p.add_field_record e1.tid name) rest)
    ∧ (∀ (e : Entry) (p : Pack) (name : String) (v : PyVal)
        (rest : List (String × PyVal)),
      name ∉ entryVars →
      Entry.set_fields e p ((name, v) :: rest)
        = (.error (.attributeError e.ty name), e, p))
    ∧ (∀ (kwargs : List (String × PyVal)) (e : Entry) (p : Pack),
      (∀ kv ∈ kwargs, kv.1 ≠ "_tid") →
      (Entry.set_fields e p kwargs).1 = .ok () →
      ((Entry.set_fields e p kwargs).2.2).fieldRecords
        = p.fieldRecords ++ kwargs.map (fun kv => (e.tid, kv.1))) := by
  refine ⟨?_, ?_, set_fields_ok_records⟩
  · intro e e1 p name v rest hs
    have hmem := setattrE_mem_entryVars e e1 name v hs
    simp [Entry.set_fields, hmem, hs]
  · intro e p name v rest hv
    simp [Entry.set_fields, hv]

/-- Witness for C3: assigning the embedding succeeds and is audited
under the entry's id; an unknown name fails with the `AttributeError`
naming the concrete type and the field, changing nothing. -/
theorem set_fields_pairwise_assign_or_unknown_witness :
    Entry.set_fields Ex.eS0 Ex.pEx [("_embedding", PyVal.arrV (npArray [3]))]
      = Entry.set_fields { Ex.eS0 with embedding := npArray [3] }
          (Ex.pEx.add_field_record Ex.eS0.tid "_embedding") []
    ∧ Entry.set_fields Ex.eS0 Ex.pEx [("bogus", PyVal.intV 1)]
        = (.error (.attributeError Ex.eS0.ty "bogus"), Ex.eS0, Ex.pEx)
    ∧ ((Entry.set_fields Ex.eS0 Ex.pEx
          [("_embedding", PyVal.arrV (npArray [3]))]).2.2).fieldRecords
        = Ex.pEx.fieldRecords ++ [(Ex.eS0.tid, "_embedding")] :=
  ⟨set_fields_pairwise_assign_or_unknown.1 Ex.eS0
      { Ex.eS0 with embedding := npArray [3] } Ex.pEx "_embedding"
      (PyVal.arrV (npArray [3])) [] rfl,
   set_fields_pairwise_assign_or_unknown.2.1 Ex.eS0 Ex.pEx "bogus"
      (PyVal.intV 1) [] (by decide),
   set_fields_pairwise_assign_or_unknown.2.2
      [("_embedding", PyVal.arrV (npArray [3]))] Ex.eS0 Ex.pEx
      (by decide) (by decide)⟩

/-- Claim C8 counterexample: the id is not immutable under the public
interface — `set_fields` accepts the instance-attribute name `_tid`
(it is in `vars(self)`) and overwrites the id: on an entry with id 0 it
succeeds and leaves the entry with id 9. -/
theorem set_fields_tid_key_changes_id :
    (Entry.set_fields Ex.eS0 Ex.pEx [("_tid", PyVal.intV 9)]).1 = .ok ()
    ∧ ((Entry.set_fields Ex.eS0 Ex.pEx [("_tid", PyVal.intV 9)]).2.1).tid = 9
    ∧ Ex.eS0.tid = 0 :=
  ⟨by decide, by decide, rfl⟩

/-- Claim C8 (amended): the id is assigned at construction and is
preserved by every modelled public operation except `reset` (which
re-runs construction and re-allocates from the container) and
`set_fields` when explicitly given the internal id attribute name
`_tid`; in particular `set_fields` with any other names, embedding
assignment, and group member addition all leave the id unchanged. -/
theorem tid_preserved_except_reset_and_tid_key :
    (∀ (e : Entry) (p : Pack) (kwargs : List (String × PyVal)),
      (∀ kv ∈ kwargs, kv.1 ≠ "_tid") →
      ((Entry.set_fields e p kwargs).2.1).tid = e.tid)
    ∧ (∀ (e : Entry) (v : List Rat), (e.setEmbedding v).tid = e.tid)
    ∧ (∀ (g : BaseGroup) (ms : List Entry),
        ((g.add_members ms).2).entry.tid = g.entry.tid) := by
  refine ⟨fun e p kwargs h => set_fields_tid_of_no_tid_key kwargs e p h,
          fun _ _ => rfl, ?_⟩
  intro g ms
  induction ms generalizing g with
  | nil => rfl
  | cons m rest ih =>
    cases hm : m.ty.isSubclassOf g.memberType
    · simp [BaseGroup.add_members, hm]
    · simp [BaseGroup.add_members, hm, ih]

/-- Witness for the amended C8: an embedding assignment through
`set_fields`, the embedding setter, and a member addition all preserve
the example entry and group ids. -/
theorem tid_preserved_except_reset_and_tid_key_witness :
    ((Entry.set_fields Ex.eS0 Ex.pEx
        [("_embedding", PyVal.arrV (npArray [3]))]).2.1).tid = Ex.eS0.tid
    ∧ (Ex.eS0.setEmbedding [4]).tid = Ex.eS0.tid
    ∧ ((Ex.gEmpty.add_members [Ex.eS0]).2).entry.tid = Ex.gEmpty.entry.tid :=
  ⟨tid_preserved_except_reset_and_tid_key.1 Ex.eS0 Ex.pEx
      [("_embedding", PyVal.arrV (npArray [3]))] (by decide),
   tid_preserved_except_reset_and_tid_key.2.1 Ex.eS0 [4],
   tid_preserved_except_reset_and_tid_key.2.2 Ex.gEmpty [Ex.eS0]⟩

end ForteCore
